import Mathlib

/-!
Verification development for the microvm state-management tool.

The model below is a shallow embedding of the State Lifecycle Manager of
the repository (namespace `vmstate` in the C++ sources, primarily
`vm-state-cpp/src/providers/zfs_state_provider.cpp` and
`vm-state-cpp/src/utils/json.cpp`, cross-checked against
`vm-state/src/vm_state.cpp`).

Modelling conventions:
* The ZFS dataset namespace visible to the tool is a `World`: the list of
  state names (immediate children of the base dataset), the list of
  snapshots as `(state name, short snapshot name)` pairs in iteration
  order, and the persisted slot-assignment registry as a key-sorted
  association list (the in-memory image of the `std::map` that
  `load_assignments` builds).
* Each mutating operation returns `(result, new world, backend op trace)`.
  The trace records the ZFS/filesystem calls the C++ code issues, in
  order, so ordering claims are statable.
* Filesystem side calls that the C++ code treats as infallible-or-abort
  (chown/chmod, symlink creation, registry file write) are modelled as
  succeeding; every claim proved here conditions only on outcomes that do
  not depend on those failure modes.
* C++ `std::string` is modelled as Lean `String`; byte positions in the
  sources are character positions here (all identifiers involved are
  ASCII, where the two coincide).
-/

namespace vmstate

/-- Error taxonomy of the spec (section 7). -/
inductive Err where
  | InvalidSlot
  | NotFound
  | AlreadyExists
  | InUse
  deriving DecidableEq, Repr

/-- One backend call, as issued by the provider code. -/
inductive ZfsOp where
  | createDataset (ds : String) (mountpoint : String)
  | destroyDataset (ds : String) (recursive : Bool)
  | createSnapshot (full : String)
  | destroySnapshot (full : String)
  | cloneFrom (snapFull : String) (ds : String) (mountpoint : String)
  | promote (ds : String)
  | chown (path : String)
  deriving DecidableEq, Repr

/-- Constructor arguments of `ZFSStateProvider` (pool, base dataset,
states dir, injected slot list). -/
structure Provider where
  pool : String
  base_dataset : String
  states_dir : String
  slots : List String
  deriving DecidableEq, Repr

/-- The storage-engine state the provider observes and mutates:
existing state names, snapshots `(state, short name)` in iteration
order, and the persisted assignment registry (sorted by key, as a
`std::map` iterates). -/
structure World where
  states : List String
  snapshots : List (String × String)
  registry : List (String × String)
  deriving DecidableEq, Repr

/-- `SlotAssignment` record (slot name, assigned state name). -/
structure SlotAssignment where
  slot_name : String
  state_name : String
  deriving DecidableEq, Repr

/-- `SnapshotInfo` record, the fields the claims need (`name`,
`state_name`, `full_name`); `creation_time`/`size_bytes` are raw
property reads from the engine, not modelled. -/
structure SnapshotInfo where
  name : String
  state_name : String
  full_name : String
  deriving DecidableEq, Repr

/-- `StateInfo` as produced by `dataset_iter_callback`: the state name
and its dataset path (space accounting fields are raw property reads,
not modelled). -/
structure StateInfo where
  name : String
  dataset : String
  deriving DecidableEq, Repr

/-- Result of a mutating provider operation: outcome, the world after
the call, and the backend calls issued (in order). -/
abbrev OpResult := Except Err Unit × World × List ZfsOp

/-- Lexicographic strict order on character sequences: the
`std::string` `operator<` that orders `std::map` keys (byte order and
code-point order coincide on UTF-8). -/
def chars_lt : List Char → List Char → Bool
  | [], [] => false
  | [], _ :: _ => true
  | _ :: _, [] => false
  | a :: as, b :: bs =>
    if a < b then true
    else if b < a then false
    else chars_lt as bs

/-- `std::string` `operator<`. -/
def str_lt (a b : String) : Bool :=
  chars_lt a.data b.data

/-- `std::map::find` on the sorted association list: first (only)
binding of the key. -/
def mapFind : List (String × String) → String → Option String
  | [], _ => none
  | (k0, v0) :: rest, k => if k = k0 then some v0 else mapFind rest k

/-- `std::map::operator[]=` on the sorted association list: sorted
insert-or-replace. -/
def mapInsert : List (String × String) → String → String → List (String × String)
  | [], k, v => [(k, v)]
  | (k0, v0) :: rest, k, v =>
    if str_lt k k0 then (k, v) :: (k0, v0) :: rest
    else if k = k0 then (k, v) :: rest
    else (k0, v0) :: mapInsert rest k v

/-- `ZFSStateProvider::get_dataset_path`: `<pool>/<base>/<name>`. -/
def get_dataset_path (p : Provider) (state_name : String) : String :=
  p.pool ++ "/" ++ p.base_dataset ++ "/" ++ state_name

/-- `ZFSStateProvider::get_mount_path`: `<states_dir>/<name>`. -/
def get_mount_path (p : Provider) (state_name : String) : String :=
  p.states_dir ++ "/" ++ state_name

/-- `ZFSStateProvider::state_exists`: probe for the state's dataset. -/
def state_exists (w : World) (name : String) : Bool :=
  w.states.contains name

/-- `ZFSStateProvider::get_slot_state`: registry lookup, defaulting to
the slot's own name when absent. -/
def get_slot_state (w : World) (slot_name : String) : String :=
  match mapFind w.registry slot_name with
  | some s => s
  | none => slot_name

/-- `ZFSStateProvider::list_assignments`: one record per configured
slot, with the same default-to-own-name rule as `get_slot_state`. -/
def list_assignments (p : Provider) (w : World) : List SlotAssignment :=
  p.slots.map (fun slot => { slot_name := slot, state_name := get_slot_state w slot })

/-- The scan loop inside `ZFSStateProvider::is_state_in_use`: first
assignment bound to the state, if any. -/
def scan_assignments (state_name : String) : List SlotAssignment → Option String
  | [] => none
  | a :: rest =>
    if a.state_name == state_name then some a.slot_name
    else scan_assignments state_name rest

/-- `ZFSStateProvider::is_state_in_use`. -/
def is_state_in_use (p : Provider) (w : World) (state_name : String) : Option String :=
  scan_assignments state_name (list_assignments p w)

/-- `ZFSStateProvider::create_state`: fails `AlreadyExists` when the
dataset exists; otherwise creates the dataset with its mountpoint and
applies the ownership policy. -/
def create_state (p : Provider) (w : World) (name : String) : OpResult :=
  if state_exists w name then (Except.error Err.AlreadyExists, w, [])
  else
    (Except.ok (),
     { w with states := w.states ++ [name] },
     [ZfsOp.createDataset (get_dataset_path p name) (get_mount_path p name),
      ZfsOp.chown (get_mount_path p name)])

/-- `ZFSStateProvider::assign_state`: validate the slot, create the
state if absent (via `create_state`), then update and persist the
registry and rebind the slot symlink. -/
def assign_state (p : Provider) (w : World) (slot_name state_name : String) : OpResult :=
  if slot_name ∉ p.slots then (Except.error Err.InvalidSlot, w, [])
  else if state_exists w state_name then
    (Except.ok (), { w with registry := mapInsert w.registry slot_name state_name }, [])
  else
    match create_state p w state_name with
    | (Except.error e, w1, t1) => (Except.error e, w1, t1)
    | (Except.ok _, w1, t1) =>
      (Except.ok (), { w1 with registry := mapInsert w1.registry slot_name state_name }, t1)

/-- `ZFSStateProvider::delete_state`: `NotFound` when absent; unless
forced, `InUse` when any assignment references the state; otherwise all
of the state's snapshots are destroyed and then the dataset (the
provider issues one recursive destroy; `LocalZfsBackend::delete_state`
destroys the snapshots one by one first — same cascade, recorded here
as snapshot destroys followed by the dataset destroy). -/
def delete_state (p : Provider) (w : World) (name : String) (force : Bool) : OpResult :=
  if state_exists w name = false then (Except.error Err.NotFound, w, [])
  else if !force && (is_state_in_use p w name).isSome then
    (Except.error Err.InUse, w, [])
  else
    (Except.ok (),
     { w with
        states := w.states.filter (fun s => s != name),
        snapshots := w.snapshots.filter (fun sn => sn.1 != name) },
     (w.snapshots.filter (fun sn => sn.1 == name)).map
        (fun sn => ZfsOp.destroySnapshot (get_dataset_path p name ++ "@" ++ sn.2))
       ++ [ZfsOp.destroyDataset (get_dataset_path p name) true])

/-- `ZFSStateProvider::clone_state`: `NotFound` when the source is
absent, `AlreadyExists` when the destination exists; otherwise snapshot
the source as `clone-for-<dest>`, clone that snapshot to the
destination dataset with the destination mountpoint, promote the
clone, and apply the ownership policy.  The intermediate snapshot is
never destroyed. -/
def clone_state (p : Provider) (w : World) (source dest : String) : OpResult :=
  if state_exists w source = false then (Except.error Err.NotFound, w, [])
  else if state_exists w dest then (Except.error Err.AlreadyExists, w, [])
  else
    (Except.ok (),
     { w with
        states := w.states ++ [dest],
        snapshots := w.snapshots ++ [(source, "clone-for-" ++ dest)] },
     [ZfsOp.createSnapshot (get_dataset_path p source ++ "@" ++ ("clone-for-" ++ dest)),
      ZfsOp.cloneFrom (get_dataset_path p source ++ "@" ++ ("clone-for-" ++ dest))
        (get_dataset_path p dest) (get_mount_path p dest),
      ZfsOp.promote (get_dataset_path p dest),
      ZfsOp.chown (get_mount_path p dest)])

/-- `ZFSStateProvider::list_snapshots` with no state filter: every
snapshot of every state, in iteration order. -/
def list_snapshots (p : Provider) (w : World) : List SnapshotInfo :=
  w.snapshots.map (fun sn =>
    { name := sn.2, state_name := sn.1,
      full_name := get_dataset_path p sn.1 ++ "@" ++ sn.2 })

/-- `ZFSStateProvider::find_snapshot`: first snapshot, across all
states, whose short name matches. -/
def find_snapshot (p : Provider) (w : World) (snapshot_name : String) : Option SnapshotInfo :=
  (list_snapshots p w).find? (fun snap => snap.name == snapshot_name)

/-- `ZFSStateProvider::restore_snapshot`: look the snapshot up by short
name (first match), fail `NotFound` when absent, `AlreadyExists` when
the new state name is taken; otherwise clone the found snapshot into
the new dataset with the new state's mountpoint, promote it, and apply
the ownership policy. -/
def restore_snapshot (p : Provider) (w : World) (snapshot_name new_state_name : String) : OpResult :=
  match find_snapshot p w snapshot_name with
  | none => (Except.error Err.NotFound, w, [])
  | some snap =>
    if state_exists w new_state_name then (Except.error Err.AlreadyExists, w, [])
    else
      (Except.ok (),
       { w with states := w.states ++ [new_state_name] },
       [ZfsOp.cloneFrom snap.full_name (get_dataset_path p new_state_name)
          (get_mount_path p new_state_name),
        ZfsOp.promote (get_dataset_path p new_state_name),
        ZfsOp.chown (get_mount_path p new_state_name)])

/-- `name_str.substr(n)` on the character sequence. -/
def substr_from (s : String) (n : Nat) : String :=
  String.mk (s.data.drop n)

/-- `s.find(c) != npos` on the character sequence. -/
def has_char (s : String) (c : Char) : Bool :=
  s.data.contains c

/-- `ZFSStateProvider::dataset_iter_callback`: skip the base dataset
itself; take the path suffix past the base as the state name; skip it
when that suffix still contains a path separator (nested dataset). -/
def dataset_iter_callback (base_path : String) (name_str : String) : Option StateInfo :=
  if name_str = base_path then none
  else
    let state_name := substr_from name_str (base_path.length + 1)
    if has_char state_name '/' then none
    else some { name := state_name, dataset := name_str }

/-- `ZFSStateProvider::list_states`, as the filter the iteration
callback applies to the dataset names handed to it. -/
def list_child_datasets (base_path : String) (names : List String) : List StateInfo :=
  names.filterMap (dataset_iter_callback base_path)

/-!
The hand-rolled JSON codec of `vm-state-cpp/src/utils/json.cpp`
(namespace `vmstate::utils`).  The C++ code walks a `std::string` with
an explicit position; here the not-yet-consumed character list is
passed instead, which is the same traversal.  The object-parse `while`
loop is given fuel `input length + 1`; every loop iteration that
recurses has consumed at least one character, so this fuel is never
exhausted on any input.
-/

/-- `std::isspace` on the characters the default C locale accepts. -/
def is_json_ws (c : Char) : Bool :=
  c = ' ' || c = '\t' || c = '\n' || c = Char.ofNat 11 || c = Char.ofNat 12 || c = '\r'

/-- `skip_ws`: advance past leading whitespace. -/
def skip_ws : List Char → List Char
  | [] => []
  | c :: rest => if is_json_ws c then skip_ws rest else c :: rest

/-- The `switch` in `parse_string` that maps the character after a
backslash to the character it denotes. -/
def unescape_char (c : Char) : Char :=
  if c = '"' then '"'
  else if c = '\\' then '\\'
  else if c = 'n' then '\n'
  else if c = 't' then '\t'
  else if c = 'r' then '\r'
  else c

/-- The accumulation loop of `parse_string`, after the opening quote:
collect characters up to the closing quote, one character per step; in
escape mode (the character after a backslash) the character is
resolved through the escape switch.  Reaching the end of input first
is a parse failure, including after a trailing lone backslash. -/
def parse_string_loop : Bool → List Char → Option (List Char × List Char)
  | _, [] => none
  | true, d :: rest =>
    match parse_string_loop false rest with
    | none => none
    | some (acc, rem) => some (unescape_char d :: acc, rem)
  | false, c :: rest =>
    if c = '"' then some ([], rest)
    else if c = '\\' then parse_string_loop true rest
    else
      match parse_string_loop false rest with
      | none => none
      | some (acc, rem) => some (c :: acc, rem)

/-- The body of `parse_string` after the opening quote. -/
def parse_string_body (s : List Char) : Option (List Char × List Char) :=
  parse_string_loop false s

/-- `parse_string`: skip whitespace, require an opening quote, then the
body loop. -/
def parse_string (s : List Char) : Option (List Char × List Char) :=
  match skip_ws s with
  | [] => none
  | c :: rest => if c = '"' then parse_string_body rest else none

/-- The per-character case of `escape_string`. -/
def escape_char (c : Char) : List Char :=
  if c = '"' then ['\\', '"']
  else if c = '\\' then ['\\', '\\']
  else if c = '\n' then ['\\', 'n']
  else if c = '\t' then ['\\', 't']
  else if c = '\r' then ['\\', 'r']
  else [c]

/-- `escape_string`: escape quote, backslash, newline, tab, carriage
return; all other characters pass through. -/
def escape_string : List Char → List Char
  | [] => []
  | c :: rest => escape_char c ++ escape_string rest

/-- The `while` loop of `parse_json_object`: stop (keeping the entries
collected so far) at end of input or at a closing brace; parse a
quoted key, a colon, and a quoted value, aborting to the empty map on
any of those failing; insert the entry; skip one comma if present. -/
def parse_obj_loop : Nat → List (String × String) → List Char → List (String × String)
  | 0, acc, _ => acc
  | Nat.succ fuel, acc, s =>
    match skip_ws s with
    | [] => acc
    | c :: rest =>
      if c = '}' then acc
      else
        match parse_string (c :: rest) with
        | none => []
        | some (k, s2) =>
          match skip_ws s2 with
          | [] => []
          | c2 :: s3 =>
            if c2 = ':' then
              match parse_string s3 with
              | none => []
              | some (v, s4) =>
                let acc2 := mapInsert acc (String.mk k) (String.mk v)
                match skip_ws s4 with
                | [] => parse_obj_loop fuel acc2 []
                | c3 :: s6 =>
                  if c3 = ',' then parse_obj_loop fuel acc2 s6
                  else parse_obj_loop fuel acc2 (c3 :: s6)
            else []

/-- `utils::parse_json_object`: expect `\x7b` after whitespace (else
the empty map), then the entry loop. -/
def parse_json_object (s : List Char) : List (String × String) :=
  match skip_ws s with
  | [] => []
  | c :: rest => if c = '{' then parse_obj_loop (rest.length + 1) [] rest else []

/-- One rendered entry of `to_json_object`: two spaces, the quoted
escaped key, colon, space, the quoted escaped value. -/
def render_entry (k v : String) : List Char :=
  ' ' :: ' ' :: '"' :: (escape_string k.data ++
    '"' :: ':' :: ' ' :: '"' :: (escape_string v.data ++ ['"']))

/-- The comma-separated entry lines of `to_json_object` (the
first-iteration flag of the C++ loop made structural). -/
def render_entries : List (String × String) → List Char
  | [] => []
  | [e] => render_entry e.1 e.2
  | e :: rest => render_entry e.1 e.2 ++ ',' :: '\n' :: render_entries rest

/-- `utils::to_json_object`: `\x7b\x7d` for the empty map, otherwise
the entries between `\x7b`, newlines, and `\x7d`. -/
def to_json_object (m : List (String × String)) : List Char :=
  match m with
  | [] => ['{', '}']
  | _ :: _ => '{' :: '\n' :: (render_entries m ++ ['\n', '}'])

/-- `utils::write_json_file` writes `to_json_object(data)` followed by
a newline (the temp-file/rename step does not change the content). -/
def write_json_content (m : List (String × String)) : List Char :=
  to_json_object m ++ ['\n']

/-- `utils::read_json_file`, over the file's content (`none` when the
file cannot be opened): the empty map for an empty file, otherwise the
parse of the content. -/
def read_json_file (content : Option (List Char)) : Option (List (String × String)) :=
  match content with
  | none => none
  | some c => if c = [] then some [] else some (parse_json_object c)

/-- `ZFSStateProvider::load_assignments`: the parsed registry, or the
empty map when the file cannot be read. -/
def load_assignments (content : Option (List Char)) : List (String × String) :=
  match read_json_file content with
  | some m => m
  | none => []

/-!
Concrete fixtures used by the witness theorems.
-/

/-- The deployment's provider configuration: the five fixed slots. -/
def pFive : Provider :=
  { pool := "tank", base_dataset := "vm", states_dir := "/var/lib/vm-states",
    slots := ["slot1", "slot2", "slot3", "slot4", "slot5"] }

/-- A small world: two states, one snapshot, one explicit assignment. -/
def wDemo : World :=
  { states := ["dev", "slot1"],
    snapshots := [("dev", "before")],
    registry := [("slot2", "dev")] }

/-!
Helper lemmas about the embedded operations.
-/

theorem chars_lt_irrefl (a : List Char) : chars_lt a a = false := by
  induction a with
  | nil => rfl
  | cons c rest ih => simp [chars_lt, ih]

theorem str_lt_irrefl (a : String) : str_lt a a = false :=
  chars_lt_irrefl a.data

theorem mapFind_mapInsert_self (m : List (String × String)) (k v : String) :
    mapFind (mapInsert m k v) k = some v := by
  induction m with
  | nil => simp [mapInsert, mapFind]
  | cons e rest ih =>
    obtain ⟨k0, v0⟩ := e
    by_cases h1 : str_lt k k0 = true
    · simp [mapInsert, h1, mapFind]
    · by_cases h2 : k = k0
      · subst h2
        simp [mapInsert, h1, str_lt_irrefl, mapFind]
      · simp [mapInsert, h1, h2, mapFind, ih]

theorem scan_assignments_eq_find (state_name : String) (l : List SlotAssignment) :
    scan_assignments state_name l =
      (l.find? (fun a => a.state_name == state_name)).map SlotAssignment.slot_name := by
  induction l with
  | nil => rfl
  | cons a rest ih =>
    by_cases h : a.state_name == state_name
    · simp [scan_assignments, h, List.find?_cons_of_pos]
    · simp only [Bool.not_eq_true] at h
      simp [scan_assignments, h, List.find?_cons_of_neg, ih]

theorem scan_assignments_isSome (state_name : String) (l : List SlotAssignment) :
    (scan_assignments state_name l).isSome = true ↔
      ∃ a ∈ l, a.state_name = state_name := by
  rw [scan_assignments_eq_find]
  simp [List.find?_isSome]

theorem state_exists_append_self (w : World) (name : String) (extra : List String) :
    state_exists { w with states := w.states ++ (name :: extra) } name = true := by
  simp [state_exists, List.elem_iff]

theorem string_mk_data (s : String) : String.mk s.data = s := rfl

theorem chars_lt_asymm : ∀ (a b : List Char), chars_lt a b = true → chars_lt b a = false
  | [], [] => by simp [chars_lt]
  | [], _ :: _ => by intro _; simp [chars_lt]
  | _ :: _, [] => by intro h; simp [chars_lt] at h
  | a :: as, b :: bs => by
    intro h
    by_cases hab : a < b
    · have hba : ¬ b < a := lt_asymm hab
      simp [chars_lt, hab, hba]
    · by_cases hba : b < a
      · simp [chars_lt, hab, hba] at h
      · have heq : a = b := le_antisymm (not_lt.mp hba) (not_lt.mp hab)
        subst heq
        simp only [chars_lt, lt_self_iff_false, if_false] at h ⊢
        exact chars_lt_asymm as bs h

theorem str_lt_asymm (a b : String) (h : str_lt a b = true) : str_lt b a = false :=
  chars_lt_asymm a.data b.data h

theorem str_lt_ne (a b : String) (h : str_lt a b = true) : a ≠ b := by
  intro heq
  subst heq
  rw [str_lt_irrefl] at h
  cases h

theorem mapInsert_append (acc : List (String × String)) (k v : String)
    (h : ∀ e ∈ acc, str_lt e.1 k = true) :
    mapInsert acc k v = acc ++ [(k, v)] := by
  induction acc with
  | nil => rfl
  | cons e rest ih =>
    obtain ⟨k0, v0⟩ := e
    have h0 : str_lt k0 k = true := h (k0, v0) (List.mem_cons_self _ _)
    have h1 : str_lt k k0 = false := str_lt_asymm k0 k h0
    have h2 : ¬ k = k0 := fun hh => (str_lt_ne k0 k h0) hh.symm
    have ih2 := ih (fun x hx => h x (List.mem_cons_of_mem _ hx))
    simp [mapInsert, h1, h2, ih2]

theorem foldl_mapInsert_sorted :
    ∀ (m acc : List (String × String)),
      m.Pairwise (fun a b => str_lt a.1 b.1 = true) →
      (∀ e ∈ acc, ∀ f ∈ m, str_lt e.1 f.1 = true) →
      List.foldl (fun a e => mapInsert a e.1 e.2) acc m = acc ++ m
  | [], acc, _, _ => by simp
  | e :: t, acc, hp, hacc => by
    have hp2 := List.pairwise_cons.mp hp
    have hins : mapInsert acc e.1 e.2 = acc ++ [e] := by
      have := mapInsert_append acc e.1 e.2
        (fun x hx => hacc x hx e (List.mem_cons_self _ _))
      simpa using this
    have ih := foldl_mapInsert_sorted t (acc ++ [e]) hp2.2 (by
      intro x hx f hf
      rcases List.mem_append.mp hx with hxa | hxe
      · exact hacc x hxa f (List.mem_cons_of_mem _ hf)
      · rw [List.mem_singleton.mp hxe]
        exact hp2.1 f hf)
    rw [List.foldl_cons, hins, ih, List.append_assoc, List.singleton_append]

theorem parse_string_body_escape :
    ∀ (l rest : List Char),
      parse_string_body (escape_string l ++ '"' :: rest) = some (l, rest)
  | [], rest => by simp [escape_string, parse_string_body, parse_string_loop]
  | c :: l, rest => by
    have ih := parse_string_body_escape l rest
    rw [parse_string_body] at ih
    by_cases h1 : c = '"'
    · subst h1
      simp [escape_string, escape_char, parse_string_body, parse_string_loop,
        unescape_char, ih]
    · by_cases h2 : c = '\\'
      · subst h2
        simp [escape_string, escape_char, parse_string_body, parse_string_loop,
          unescape_char, ih]
      · by_cases h3 : c = '\n'
        · subst h3
          simp [escape_string, escape_char, parse_string_body, parse_string_loop,
            unescape_char, ih]
        · by_cases h4 : c = '\t'
          · subst h4
            simp [escape_string, escape_char, parse_string_body, parse_string_loop,
              unescape_char, ih]
          · by_cases h5 : c = '\r'
            · subst h5
              simp [escape_string, escape_char, parse_string_body, parse_string_loop,
                unescape_char, ih]
            · simp [escape_string, escape_char, parse_string_body, parse_string_loop,
                unescape_char, h1, h2, h3, h4, h5, ih]

theorem render_entries_length : ∀ m : List (String × String),
    m.length ≤ (render_entries m).length
  | [] => by simp [render_entries]
  | [e] => by
    rw [show render_entries [e] = render_entry e.1 e.2 from rfl, render_entry]
    simp only [List.length_cons, List.length_nil]
    omega
  | e :: f :: t => by
    have ih := render_entries_length (f :: t)
    simp only [render_entries, render_entry, List.length_append, List.length_cons] at *
    omega

theorem parse_obj_loop_render :
    ∀ (m : List (String × String)) (fuel : Nat) (acc : List (String × String))
      (junk : List Char),
      m.length + 1 ≤ fuel →
      parse_obj_loop fuel acc ('\n' :: (render_entries m ++ '\n' :: '}' :: junk)) =
        List.foldl (fun a e => mapInsert a e.1 e.2) acc m
  | [], fuel, acc, junk, hfuel => by
    cases fuel with
    | zero => omega
    | succ f => simp [render_entries, parse_obj_loop, skip_ws, is_json_ws]
  | (k, v) :: t, fuel, acc, junk, hfuel => by
    cases fuel with
    | zero => omega
    | succ f =>
      cases t with
      | nil =>
        have h1 : parse_obj_loop (f + 1) acc
              ('\n' :: (render_entries [(k, v)] ++ '\n' :: '}' :: junk)) =
            parse_obj_loop f (mapInsert acc k v) ('}' :: junk) := by
          simp [render_entries, render_entry, parse_obj_loop, skip_ws, is_json_ws,
            parse_string, parse_string_body_escape, string_mk_data, List.append_assoc]
        have h2 : parse_obj_loop f (mapInsert acc k v) ('}' :: junk) =
            mapInsert acc k v := by
          cases f with
          | zero =>
            simp only [List.length_cons, List.length_nil] at hfuel
            omega
          | succ f2 => simp [parse_obj_loop, skip_ws, is_json_ws]
        rw [h1, h2]
        rfl
      | cons e2 t2 =>
        have h1 : parse_obj_loop (f + 1) acc
              ('\n' :: (render_entries ((k, v) :: e2 :: t2) ++ '\n' :: '}' :: junk)) =
            parse_obj_loop f (mapInsert acc k v)
              ('\n' :: (render_entries (e2 :: t2) ++ '\n' :: '}' :: junk)) := by
          simp [render_entries, render_entry, parse_obj_loop, skip_ws, is_json_ws,
            parse_string, parse_string_body_escape, string_mk_data, List.append_assoc]
        have ih := parse_obj_loop_render (e2 :: t2) f (mapInsert acc k v) junk (by
          simp only [List.length_cons] at hfuel ⊢
          omega)
        rw [h1, ih]
        rfl

/-- C1: for a slot in the configured set, a successful
`assign_state(slot, S)` leaves `state_exists S` true and
`get_slot_state slot = S`, creating `S` first (via `create_state`)
when it did not exist; for a slot outside the set, `assign_state`
fails with `InvalidSlot` without touching the world. -/
theorem c1_assign_state_correct (p : Provider) (w : World) (slot S : String) :
    ((assign_state p w slot S).1 = Except.ok () →
      state_exists (assign_state p w slot S).2.1 S = true ∧
      get_slot_state (assign_state p w slot S).2.1 slot = S) ∧
    (state_exists w S = false → (assign_state p w slot S).1 = Except.ok () →
      (assign_state p w slot S).2.2 =
        [ZfsOp.createDataset (get_dataset_path p S) (get_mount_path p S),
         ZfsOp.chown (get_mount_path p S)]) ∧
    (slot ∉ p.slots →
      assign_state p w slot S = (Except.error Err.InvalidSlot, w, [])) := by
  by_cases hmem : slot ∈ p.slots
  · by_cases hex : state_exists w S = true
    · refine ⟨fun _ => ⟨?_, ?_⟩, fun hnex _ => ?_, fun hinv => absurd hmem hinv⟩
      · have h2 : (assign_state p w slot S).2.1 =
            { w with registry := mapInsert w.registry slot S } := by
          simp [assign_state, hmem, hex]
        rw [h2]
        exact hex
      · simp [assign_state, hmem, hex, get_slot_state, mapFind_mapInsert_self]
      · exact absurd hex (by simp [hnex])
    · simp only [Bool.not_eq_true] at hex
      refine ⟨fun _ => ⟨?_, ?_⟩, fun _ _ => ?_, fun hinv => absurd hmem hinv⟩
      · simpa [assign_state, hmem, hex, create_state] using
          state_exists_append_self w S []
      · simp [assign_state, hmem, hex, create_state, get_slot_state,
          mapFind_mapInsert_self]
      · simp [assign_state, hmem, hex, create_state]
  · refine ⟨fun hok => ?_, fun _ hok => ?_, fun _ => ?_⟩
    · exact absurd hok (by simp [assign_state, hmem])
    · exact absurd hok (by simp [assign_state, hmem])
    · simp [assign_state, hmem]

/-- C1 witness: assigning `slot3` to the fresh state name `newst` in
the demo world succeeds, creates the state, and records the
assignment; `"badslot"` is rejected with `InvalidSlot`. -/
theorem c1_assign_state_correct_witness :
    (state_exists (assign_state pFive wDemo "slot3" "newst").2.1 "newst" = true ∧
      get_slot_state (assign_state pFive wDemo "slot3" "newst").2.1 "slot3" = "newst") ∧
    (assign_state pFive wDemo "slot3" "newst").2.2 =
      [ZfsOp.createDataset (get_dataset_path pFive "newst") (get_mount_path pFive "newst"),
       ZfsOp.chown (get_mount_path pFive "newst")] ∧
    assign_state pFive wDemo "badslot" "newst" = (Except.error Err.InvalidSlot, wDemo, []) :=
  ⟨(c1_assign_state_correct pFive wDemo "slot3" "newst").1 rfl,
   (c1_assign_state_correct pFive wDemo "slot3" "newst").2.1 (by decide) rfl,
   (c1_assign_state_correct pFive wDemo "badslot" "newst").2.2 (by decide)⟩

/-- C4: for every slot in the fixed set, `get_slot_state` returns the
registry entry when present and the slot's own name when absent, and
`list_assignments` returns exactly one record per configured slot,
built by the same default-to-own-name rule. -/
theorem c4_get_slot_state_default (p : Provider) (w : World) (slot : String)
    (hslot : slot ∈ p.slots) :
    (∀ s, mapFind w.registry slot = some s → get_slot_state w slot = s) ∧
    (mapFind w.registry slot = none → get_slot_state w slot = slot) ∧
    (list_assignments p w).length = p.slots.length ∧
    list_assignments p w =
      p.slots.map (fun sl =>
        { slot_name := sl,
          state_name := match mapFind w.registry sl with
                        | some s => s
                        | none => sl }) := by
  refine ⟨fun s hs => ?_, fun hn => ?_, ?_, ?_⟩
  · simp [get_slot_state, hs]
  · simp [get_slot_state, hn]
  · simp [list_assignments]
  · rfl

/-- C4 witness: in the demo world `slot2` is explicitly mapped to
`dev`, `slot1` falls back to its own name, and the assignment listing
has one record per slot. -/
theorem c4_get_slot_state_default_witness :
    (∀ s, mapFind wDemo.registry "slot2" = some s → get_slot_state wDemo "slot2" = s) ∧
    (mapFind wDemo.registry "slot1" = none → get_slot_state wDemo "slot1" = "slot1") ∧
    (list_assignments pFive wDemo).length = pFive.slots.length :=
  ⟨(c4_get_slot_state_default pFive wDemo "slot2" (by decide)).1,
   fun _ => (c4_get_slot_state_default pFive wDemo "slot1" (by decide)).2.1 (by decide),
   (c4_get_slot_state_default pFive wDemo "slot1" (by decide)).2.2.1⟩

/-- C5: `is_state_in_use` is the first-match scan of the assignment
records; it returns the single referencing slot when the state is
referenced by exactly one assignment, and `none` when no assignment
references it. -/
theorem c5_is_state_in_use_scan (p : Provider) (w : World) (S : String) :
    is_state_in_use p w S =
      ((list_assignments p w).find? (fun a => a.state_name == S)).map
        SlotAssignment.slot_name ∧
    ((∀ a ∈ list_assignments p w, a.state_name ≠ S) → is_state_in_use p w S = none) ∧
    (∀ a, (list_assignments p w).filter (fun x => x.state_name == S) = [a] →
      is_state_in_use p w S = some a.slot_name) := by
  refine ⟨scan_assignments_eq_find S (list_assignments p w), fun hnone => ?_, fun a ha => ?_⟩
  · rw [is_state_in_use, scan_assignments_eq_find]
    have : (list_assignments p w).find? (fun a => a.state_name == S) = none := by
      rw [List.find?_eq_none]
      intro x hx
      simpa using hnone x hx
    simp [this]
  · rw [is_state_in_use, scan_assignments_eq_find]
    have hmem : a ∈ (list_assignments p w).filter (fun x => x.state_name == S) := by
      rw [ha]; exact List.mem_singleton_self a
    have hprop : (a.state_name == S) = true := (List.mem_filter.mp hmem).2
    have : (list_assignments p w).find? (fun x => x.state_name == S) = some a := by
      rcases hfind : (list_assignments p w).find? (fun x => x.state_name == S) with _ | b
      · rw [List.find?_eq_none] at hfind
        exact absurd hprop (by simpa using hfind a (List.mem_filter.mp hmem).1)
      · have hbmem : b ∈ list_assignments p w := List.mem_of_find?_eq_some hfind
        have hpb0 := List.find?_some hfind
        have hpb : (b.state_name == S) = true := hpb0
        have hb : b ∈ (list_assignments p w).filter (fun x => x.state_name == S) :=
          List.mem_filter.mpr ⟨hbmem, hpb⟩
        rw [ha, List.mem_singleton] at hb
        rw [hfind, hb]
    simp [this]

/-- C2: `delete_state` fails `NotFound` on an absent state; with
`force = false` it fails `InUse`, leaving the world untouched, when
some slot references the state; otherwise it succeeds, destroying the
state's snapshots and then the dataset, after which the state no
longer exists and no snapshot of it remains. -/
theorem c2_delete_state_contract (p : Provider) (w : World) (name : String) (force : Bool) :
    (state_exists w name = false →
      delete_state p w name force = (Except.error Err.NotFound, w, [])) ∧
    (state_exists w name = true → force = false →
      (is_state_in_use p w name).isSome = true →
      delete_state p w name force = (Except.error Err.InUse, w, [])) ∧
    (state_exists w name = true →
      (force = true ∨ is_state_in_use p w name = none) →
      (delete_state p w name force).1 = Except.ok () ∧
      state_exists (delete_state p w name force).2.1 name = false ∧
      (∀ sn ∈ (delete_state p w name force).2.1.snapshots, sn.1 ≠ name) ∧
      (delete_state p w name force).2.2 =
        (w.snapshots.filter (fun sn => sn.1 == name)).map
          (fun sn => ZfsOp.destroySnapshot (get_dataset_path p name ++ "@" ++ sn.2))
          ++ [ZfsOp.destroyDataset (get_dataset_path p name) true]) := by
  refine ⟨fun hnex => ?_, fun hex hforce hsome => ?_, fun hex hok => ?_⟩
  · simp [delete_state, hnex]
  · subst hforce
    simp [delete_state, hex, hsome]
  · have hcond : (!force && (is_state_in_use p w name).isSome) = false := by
      rcases hok with h | h
      · simp [h]
      · simp [h]
    refine ⟨?_, ?_, ?_, ?_⟩
    · simp [delete_state, hex, hcond]
    · have h2 : (delete_state p w name force).2.1.states =
          w.states.filter (fun s => s != name) := by
        simp [delete_state, hex, hcond]
      rw [state_exists, h2]
      by_contra hc
      simp only [Bool.not_eq_false, List.elem_iff, List.mem_filter,
        bne_iff_ne] at hc
      exact hc.2 rfl
    · intro sn hsn
      have h2 : (delete_state p w name force).2.1.snapshots =
          w.snapshots.filter (fun sn => sn.1 != name) := by
        simp [delete_state, hex, hcond]
      rw [h2] at hsn
      exact bne_iff_ne.mp (List.mem_filter.mp hsn).2
    · simp [delete_state, hex, hcond]

/-- C2 witness: deleting `dev` in the demo world fails `InUse` without
force, succeeds with force (destroying its snapshot and dataset), and
deleting the absent `ghost` fails `NotFound`. -/
theorem c2_delete_state_contract_witness :
    delete_state pFive wDemo "ghost" false = (Except.error Err.NotFound, wDemo, []) ∧
    delete_state pFive wDemo "dev" false = (Except.error Err.InUse, wDemo, []) ∧
    (state_exists (delete_state pFive wDemo "dev" true).2.1 "dev" = false ∧
      (delete_state pFive wDemo "dev" true).2.2 =
        [ZfsOp.destroySnapshot "tank/vm/dev@before",
         ZfsOp.destroyDataset "tank/vm/dev" true]) :=
  ⟨(c2_delete_state_contract pFive wDemo "ghost" false).1 (by decide),
   (c2_delete_state_contract pFive wDemo "dev" false).2.1 (by decide) rfl (by decide),
   ((c2_delete_state_contract pFive wDemo "dev" true).2.2 (by decide) (Or.inl rfl)).2.1,
   by
    have h := ((c2_delete_state_contract pFive wDemo "dev" true).2.2 (by decide)
      (Or.inl rfl)).2.2.2
    simpa using h⟩

/-- C9: a state named after a configured slot with no registry entry
for that slot is always reported in use (via the default-to-own-name
rule), so deleting it without force fails `InUse` and changes
nothing, even though no assignment was ever explicitly recorded. -/
theorem c9_default_assignment_blocks_delete (p : Provider) (w : World) (S : String)
    (hslot : S ∈ p.slots) (hreg : mapFind w.registry S = none)
    (hex : state_exists w S = true) :
    (is_state_in_use p w S).isSome = true ∧
    (delete_state p w S false).1 = Except.error Err.InUse ∧
    (delete_state p w S false).2.1 = w := by
  have hsome : (is_state_in_use p w S).isSome = true := by
    rw [is_state_in_use, scan_assignments_isSome]
    refine ⟨{ slot_name := S, state_name := get_slot_state w S }, ?_, ?_⟩
    · exact List.mem_map.mpr ⟨S, hslot, rfl⟩
    · simp [get_slot_state, hreg]
  exact ⟨hsome, by simp [delete_state, hex, hsome], by simp [delete_state, hex, hsome]⟩

/-- C9 witness: the state `slot1` exists in the demo world, the
registry has no entry for slot `slot1`, and deleting it without force
fails `InUse` leaving the world unchanged. -/
theorem c9_default_assignment_blocks_delete_witness :
    (is_state_in_use pFive wDemo "slot1").isSome = true ∧
    (delete_state pFive wDemo "slot1" false).1 = Except.error Err.InUse ∧
    (delete_state pFive wDemo "slot1" false).2.1 = wDemo :=
  c9_default_assignment_blocks_delete pFive wDemo "slot1"
    (by decide) (by decide) (by decide)

/-- C3: `clone_state` fails `NotFound` when the source is absent and
`AlreadyExists` when the destination exists; on success it issues, in
order, snapshot `clone-for-<dest>` on the source, clone of that
snapshot to the destination dataset and mountpoint, promote, chown;
the intermediate snapshot is never destroyed and remains attached to
the source state. -/
theorem c3_clone_state_contract (p : Provider) (w : World) (source dest : String) :
    (state_exists w source = false →
      clone_state p w source dest = (Except.error Err.NotFound, w, [])) ∧
    (state_exists w source = true → state_exists w dest = true →
      clone_state p w source dest = (Except.error Err.AlreadyExists, w, [])) ∧
    (state_exists w source = true → state_exists w dest = false →
      (clone_state p w source dest).1 = Except.ok () ∧
      (clone_state p w source dest).2.2 =
        [ZfsOp.createSnapshot (get_dataset_path p source ++ "@" ++ ("clone-for-" ++ dest)),
         ZfsOp.cloneFrom (get_dataset_path p source ++ "@" ++ ("clone-for-" ++ dest))
           (get_dataset_path p dest) (get_mount_path p dest),
         ZfsOp.promote (get_dataset_path p dest),
         ZfsOp.chown (get_mount_path p dest)] ∧
      (source, "clone-for-" ++ dest) ∈ (clone_state p w source dest).2.1.snapshots ∧
      (∀ op ∈ (clone_state p w source dest).2.2, ∀ full, op ≠ ZfsOp.destroySnapshot full)) := by
  refine ⟨fun hns => ?_, fun hs hd => ?_, fun hs hd => ⟨?_, ?_, ?_, ?_⟩⟩
  · simp [clone_state, hns]
  · simp [clone_state, hs, hd]
  · simp [clone_state, hs, hd]
  · simp [clone_state, hs, hd]
  · simp [clone_state, hs, hd]
  · intro op hop full
    have h2 : (clone_state p w source dest).2.2 =
        [ZfsOp.createSnapshot (get_dataset_path p source ++ "@" ++ ("clone-for-" ++ dest)),
         ZfsOp.cloneFrom (get_dataset_path p source ++ "@" ++ ("clone-for-" ++ dest))
           (get_dataset_path p dest) (get_mount_path p dest),
         ZfsOp.promote (get_dataset_path p dest),
         ZfsOp.chown (get_mount_path p dest)] := by
      simp [clone_state, hs, hd]
    rw [h2] at hop
    simp only [List.mem_cons, List.not_mem_nil, or_false] at hop
    rcases hop with rfl | rfl | rfl | rfl <;> simp

/-- C3 witness: cloning `dev` to `copy` in the demo world issues
snapshot, clone, promote, chown in order and leaves the snapshot
`clone-for-copy` attached to `dev`. -/
theorem c3_clone_state_contract_witness :
    (clone_state pFive wDemo "dev" "copy").1 = Except.ok () ∧
    (clone_state pFive wDemo "dev" "copy").2.2 =
      [ZfsOp.createSnapshot "tank/vm/dev@clone-for-copy",
       ZfsOp.cloneFrom "tank/vm/dev@clone-for-copy" "tank/vm/copy"
         "/var/lib/vm-states/copy",
       ZfsOp.promote "tank/vm/copy",
       ZfsOp.chown "/var/lib/vm-states/copy"] ∧
    ("dev", "clone-for-copy") ∈ (clone_state pFive wDemo "dev" "copy").2.1.snapshots ∧
    clone_state pFive wDemo "ghost" "copy" = (Except.error Err.NotFound, wDemo, []) ∧
    clone_state pFive wDemo "dev" "slot1" = (Except.error Err.AlreadyExists, wDemo, []) := by
  have h := (c3_clone_state_contract pFive wDemo "dev" "copy").2.2 (by decide) (by decide)
  refine ⟨h.1, ?_, h.2.2.1, ?_, ?_⟩
  · have h2 := h.2.1
    simpa using h2
  · exact (c3_clone_state_contract pFive wDemo "ghost" "copy").1 (by decide)
  · exact (c3_clone_state_contract pFive wDemo "dev" "slot1").2.1 (by decide) (by decide)

/-- C7: `restore_snapshot` looks the snapshot up by short name across
all states, first match first; it fails `NotFound` when no snapshot
bears the short name, `AlreadyExists` when the new state name is
taken; on success it clones the found snapshot into the new dataset
with the new state's mountpoint, promotes it, and applies the
ownership policy. -/
theorem c7_restore_snapshot_contract (p : Provider) (w : World)
    (snapshot_name new_state_name : String) :
    find_snapshot p w snapshot_name =
      (w.snapshots.find? (fun sn => sn.2 == snapshot_name)).map
        (fun sn => { name := sn.2, state_name := sn.1,
                     full_name := get_dataset_path p sn.1 ++ "@" ++ sn.2 }) ∧
    ((∀ sn ∈ w.snapshots, sn.2 ≠ snapshot_name) →
      restore_snapshot p w snapshot_name new_state_name =
        (Except.error Err.NotFound, w, [])) ∧
    (∀ snap, find_snapshot p w snapshot_name = some snap →
      state_exists w new_state_name = true →
      restore_snapshot p w snapshot_name new_state_name =
        (Except.error Err.AlreadyExists, w, [])) ∧
    (∀ snap, find_snapshot p w snapshot_name = some snap →
      state_exists w new_state_name = false →
      restore_snapshot p w snapshot_name new_state_name =
        (Except.ok (), { w with states := w.states ++ [new_state_name] },
         [ZfsOp.cloneFrom snap.full_name (get_dataset_path p new_state_name)
            (get_mount_path p new_state_name),
          ZfsOp.promote (get_dataset_path p new_state_name),
          ZfsOp.chown (get_mount_path p new_state_name)])) := by
  have hfm : find_snapshot p w snapshot_name =
      (w.snapshots.find? (fun sn => sn.2 == snapshot_name)).map
        (fun sn => ({ name := sn.2, state_name := sn.1,
                      full_name := get_dataset_path p sn.1 ++ "@" ++ sn.2 } :
                      SnapshotInfo)) := by
    rw [find_snapshot, list_snapshots, List.find?_map]
    rfl
  refine ⟨hfm, fun hnone => ?_, fun snap hsnap hex => ?_, fun snap hsnap hnex => ?_⟩
  · have hn : find_snapshot p w snapshot_name = none := by
      rw [hfm]
      have : w.snapshots.find? (fun sn => sn.2 == snapshot_name) = none := by
        rw [List.find?_eq_none]
        intro sn hsn
        simpa using hnone sn hsn
      simp [this]
    simp [restore_snapshot, hn]
  · simp [restore_snapshot, hsnap, hex]
  · simp [restore_snapshot, hsnap, hnex]

/-- C7 witness: restoring snapshot `before` to the fresh name `resto`
clones, promotes and chowns from `dev@before`; restoring to the
existing name `slot1` fails `AlreadyExists`; restoring the unknown
short name `nosnap` fails `NotFound`. -/
theorem c7_restore_snapshot_contract_witness :
    restore_snapshot pFive wDemo "before" "resto" =
      (Except.ok (),
       { wDemo with states := wDemo.states ++ ["resto"] },
       [ZfsOp.cloneFrom "tank/vm/dev@before" "tank/vm/resto" "/var/lib/vm-states/resto",
        ZfsOp.promote "tank/vm/resto",
        ZfsOp.chown "/var/lib/vm-states/resto"]) ∧
    restore_snapshot pFive wDemo "before" "slot1" =
      (Except.error Err.AlreadyExists, wDemo, []) ∧
    restore_snapshot pFive wDemo "nosnap" "resto" =
      (Except.error Err.NotFound, wDemo, []) := by
  refine ⟨?_, ?_, ?_⟩
  · have h := (c7_restore_snapshot_contract pFive wDemo "before" "resto").2.2.2
      { name := "before", state_name := "dev", full_name := "tank/vm/dev@before" }
      (by decide) (by decide)
    simpa using h
  · exact (c7_restore_snapshot_contract pFive wDemo "before" "slot1").2.2.1
      { name := "before", state_name := "dev", full_name := "tank/vm/dev@before" }
      (by decide) (by decide)
  · exact (c7_restore_snapshot_contract pFive wDemo "nosnap" "resto").2.1 (by decide)

/-- C6: every entry the dataset-iteration callback lets through is
neither the base dataset itself nor a dataset nested two or more path
levels below the base: an entry whose dataset is `base/c` has no
further path separator in `c`, and `c` is exactly the reported state
name. -/
theorem c6_list_states_immediate_children_only (base_path : String) (names : List String)
    (info : StateInfo) (h : info ∈ list_child_datasets base_path names) :
    info.dataset ≠ base_path ∧
    (∀ c : String, info.dataset = base_path ++ "/" ++ c →
      has_char c '/' = false ∧ info.name = c) := by
  obtain ⟨n, _, hcb⟩ := List.mem_filterMap.mp h
  rw [dataset_iter_callback] at hcb
  by_cases hb : n = base_path
  · simp [hb] at hcb
  · rw [if_neg hb] at hcb
    by_cases hsl : has_char (substr_from n (base_path.length + 1)) '/' = true
    · simp [hsl] at hcb
    · simp only [Bool.not_eq_true] at hsl
      rw [if_neg (by simp [hsl])] at hcb
      have hinfo : info = { name := substr_from n (base_path.length + 1), dataset := n } :=
        (Option.some.injEq _ _).mp hcb.symm
      subst hinfo
      refine ⟨hb, fun c hc => ?_⟩
      have hsub : substr_from n (base_path.length + 1) = c := by
        rw [substr_from]
        simp only at hc
        subst hc
        have hdata : (base_path ++ "/" ++ c).data = (base_path.data ++ ['/']) ++ c.data := by
          simp [String.data_append]
        rw [hdata]
        have hlen : base_path.length + 1 = (base_path.data ++ ['/']).length := by
          rw [List.length_append]
          rfl
        rw [hlen, List.drop_left]
      rw [hsub] at hsl
      exact ⟨hsl, hsub⟩

/-- C6 witness: with base `tank/vm`, the iteration filter reports the
immediate child `tank/vm/dev`, which is not the base and whose suffix
`dev` contains no separator. -/
theorem c6_list_states_immediate_children_only_witness :
    ({ name := "dev", dataset := "tank/vm/dev" } : StateInfo).dataset ≠ "tank/vm" ∧
    (∀ c : String,
      ({ name := "dev", dataset := "tank/vm/dev" } : StateInfo).dataset =
        "tank/vm" ++ "/" ++ c →
      has_char c '/' = false ∧
      ({ name := "dev", dataset := "tank/vm/dev" } : StateInfo).name = c) :=
  c6_list_states_immediate_children_only "tank/vm"
    ["tank/vm", "tank/vm/dev", "tank/vm/dev/sub"]
    { name := "dev", dataset := "tank/vm/dev" } (by decide)

/-- C8: serialising any flat string-to-string mapping (its entries in
strictly ascending key order, as a `std::map` iterates) with
`to_json_object` — also in the file form written by `write_json_file`,
with a trailing newline — and parsing the result back with
`parse_json_object` yields the identical mapping. -/
theorem c8_registry_round_trip (m : List (String × String))
    (hsorted : m.Pairwise (fun a b => str_lt a.1 b.1 = true)) :
    parse_json_object (write_json_content m) = m ∧
    parse_json_object (to_json_object m) = m := by
  cases m with
  | nil => exact ⟨rfl, rfl⟩
  | cons e t =>
    have key : ∀ junk : List Char,
        parse_json_object
          ('{' :: '\n' :: (render_entries (e :: t) ++ '\n' :: '}' :: junk)) =
          e :: t := by
      intro junk
      have hs : skip_ws
          ('{' :: '\n' :: (render_entries (e :: t) ++ '\n' :: '}' :: junk)) =
          '{' :: '\n' :: (render_entries (e :: t) ++ '\n' :: '}' :: junk) := by
        simp [skip_ws, is_json_ws]
      have hfuel : (e :: t).length + 1 ≤
          ('\n' :: (render_entries (e :: t) ++ '\n' :: '}' :: junk)).length + 1 := by
        have hr := render_entries_length (e :: t)
        simp only [List.length_cons, List.length_append] at *
        omega
      rw [parse_json_object, hs]
      simp only [Char.isValue, if_pos rfl]
      rw [parse_obj_loop_render (e :: t) _ [] junk hfuel]
      rw [foldl_mapInsert_sorted (e :: t) [] hsorted (by intro x hx; cases hx)]
      rfl
    constructor
    · have h1 := key ['\n']
      rw [write_json_content, to_json_object]
      simpa [List.append_assoc] using h1
    · have h2 := key []
      rw [to_json_object]
      exact h2

/-- C8 witness: a five-slot mapping (keys in map order) survives the
write-then-parse round trip exactly. -/
theorem c8_registry_round_trip_witness :
    parse_json_object (write_json_content
      [("slot1", "dev"), ("slot2", "prod"), ("slot3", "slot3"),
       ("slot4", "a b"), ("slot5", "x")]) =
      [("slot1", "dev"), ("slot2", "prod"), ("slot3", "slot3"),
       ("slot4", "a b"), ("slot5", "x")] ∧
    parse_json_object (write_json_content []) = ([] : List (String × String)) :=
  ⟨(c8_registry_round_trip
      [("slot1", "dev"), ("slot2", "prod"), ("slot3", "slot3"),
       ("slot4", "a b"), ("slot5", "x")] (by decide)).1,
   (c8_registry_round_trip [] (by decide)).1⟩

/-- C10 counterexample: the input consisting of an opening brace,
`"a": "b"` and no closing brace is not a well-formed JSON object, yet
`parse_json_object` returns the non-empty mapping `a ↦ b` rather than
the empty mapping. -/
theorem c10_counterexample :
    parse_json_object ('{' :: "\"a\": \"b\"".data) = [("a", "b")] ∧
    ([("a", "b")] : List (String × String)) ≠ [] := by
  exact ⟨by decide, by decide⟩

/-- C10 (amended): `parse_json_object` never raises or reports an
error; it returns the empty mapping for every input that does not
start (after whitespace) with an opening brace, though for some
malformed inputs that do start with one it returns a non-empty
partial mapping; `read_json_file` returns the empty mapping for an
empty file and some mapping for every other readable content, and
`load_assignments` treats an unreadable registry file like an absent
one, yielding the empty registry. -/
theorem c10_parse_errors_amended (s : List Char)
    (h : (skip_ws s).head? ≠ some '{') :
    parse_json_object s = [] ∧
    read_json_file (some []) = some [] ∧
    (∀ content : List Char, (read_json_file (some content)).isSome = true) ∧
    load_assignments none = [] := by
  refine ⟨?_, rfl, fun content => ?_, rfl⟩
  · rw [parse_json_object]
    rcases hs : skip_ws s with _ | ⟨c, rest⟩
    · rfl
    · rw [hs] at h
      simp only [List.head?] at h
      have : ¬ c = '{' := fun hc => h (by rw [hc])
      simp [this]
  · rw [read_json_file]
    rcases hc : content with _ | _ <;> simp

/-- C10 amended witness: garbage input not starting with a brace
parses to the empty mapping. -/
theorem c10_parse_errors_amended_witness :
    parse_json_object ("corrupt registry!".data) = [] ∧
    load_assignments none = [] :=
  ⟨(c10_parse_errors_amended ("corrupt registry!".data) (by decide)).1,
   (c10_parse_errors_amended ("corrupt registry!".data) (by decide)).2.2.2⟩

/-- C5 witness: in the demo world `dev` is referenced exactly by
`slot2`, and the never-assigned name `ghost` is unreferenced. -/
theorem c5_is_state_in_use_scan_witness :
    is_state_in_use pFive wDemo "ghost" = none ∧
    is_state_in_use pFive wDemo "dev" = some "slot2" :=
  ⟨(c5_is_state_in_use_scan pFive wDemo "ghost").2.1 (by decide),
   (c5_is_state_in_use_scan pFive wDemo "dev").2.2
      { slot_name := "slot2", state_name := "dev" } (by decide)⟩

end vmstate
